import Mathlib

/-
Verification of the Cliente CRUD service (Flask + SQLAlchemy + Marshmallow).

Shallow embedding of:
  - app/models.py   : the Cliente entity, BaseModel timestamps, Cliente.update
  - app/schemas.py  : ClienteSchema field validation and the schema-level
                      validate_fields (blank-name guard + email uniqueness)
  - app/routes.py   : create_cliente / list_clientes / update_cliente /
                      delete_cliente endpoint logic

Conventions of the embedding:
  - Timestamps are Nat ticks; `datetime.utcnow` is modelled as a single `now`
    value per request (both column defaults of one INSERT read the same tick).
  - The database is a list of committed rows plus the autoincrement counter
    `nextId`; `usedIds` is the log of every id the counter ever handed out,
    modelling that SQLAlchemy's autoincrement primary key never reuses ids.
  - Request bodies are a small JSON fragment: absent body, an object of
    string/null fields, or an array of such objects.  `request.get_json()`
    returning None, an empty dict or an empty list are exactly the falsy
    bodies of the Python `if not json_data:` check.
-/

set_option maxRecDepth 8192

namespace CrudPython

/-- JSON scalar values that can occur as field values in a request body. -/
inductive JVal where
  | s (v : String)
  | null
  deriving DecidableEq, Repr

/-- A JSON object: an association list of field name to value. -/
abbrev JObj := List (String × JVal)

/-- A request body as returned by `request.get_json()`: `absent` models None
(no/invalid JSON body), `obj` a JSON object, `arr` a JSON array of objects. -/
inductive ReqBody where
  | absent
  | obj (o : JObj)
  | arr (items : List JObj)
  deriving DecidableEq, Repr

/-- Python truthiness of `json_data` as used in `if not json_data:`
(routes.py:163, routes.py:557): None, the empty dict and the empty list are
all falsy. -/
def ReqBody.falsy : ReqBody → Bool
  | .absent => true
  | .obj o => o.isEmpty
  | .arr l => l.isEmpty

/-- A committed Cliente row (models.py Cliente + BaseModel columns). -/
structure Cliente where
  id : Nat
  nombre : String
  email : String
  telefono : Option String
  estado : String
  fecha_creacion : Nat
  fecha_actualizacion : Nat
  deriving DecidableEq, Repr

/-- The database state: committed rows, the autoincrement counter, and the
log of ids ever assigned (autoincrement never reuses an id). -/
structure AppState where
  records : List Cliente
  nextId : Nat
  usedIds : List Nat
  deriving DecidableEq, Repr

/-- Well-formedness of a database state: every assigned id is below the
autoincrement counter, every committed row carries an assigned id, row ids
are pairwise distinct (primary key), and row emails are pairwise distinct
(the UNIQUE constraint on the email column, models.py:170). -/
def WF (s : AppState) : Prop :=
  (∀ i ∈ s.usedIds, i < s.nextId) ∧
  (∀ r ∈ s.records, r.id ∈ s.usedIds) ∧
  (s.records.map (fun r => r.id)).Nodup ∧
  (s.records.map (fun r => r.email)).Nodup

/-- Looks up a field of a JSON object (dict access in Python; keys of a JSON
object are unique, the first binding wins). -/
def getField (o : JObj) (k : String) : Option JVal :=
  match o.find? (fun kv => kv.1 == k) with
  | some kv => some kv.2
  | none => none

/-- A string all of whose characters are whitespace; `s.strip() == ""` in
Python is `s = "" ∨ strBlank s` and for nonempty `s` it is `strBlank s`. -/
def strBlank (s : String) : Bool :=
  s.toList.all (fun c => c.isWhitespace)

/-- Email grammar check of the marshmallow `fields.Email` field.  Modelled
from the spec: the exact RFC grammar lives in the marshmallow library (not in
src); this model accepts strings with exactly one at-sign separating a
nonempty local part from a nonempty domain that contains an inner dot and no
whitespace. -/
def isValidEmail (s : String) : Bool :=
  let cs := s.toList
  (cs.count '@' == 1) &&
  (match cs.span (fun c => c != '@') with
   | (lp, _ :: dom) =>
       (!lp.isEmpty) && (!dom.isEmpty) && dom.contains '.' &&
       (dom.head? != some '.') && (dom.getLast? != some '.') &&
       (!cs.any (fun c => c.isWhitespace))
   | (_, []) => false)

/-- Field names the schema loads (schemas.py:159-196); `id`,
`fecha_creacion`, `fecha_actualizacion` are dump_only, so any other key in a
request body is an unknown field (marshmallow unknown=RAISE). -/
def knownKeys : List String := ["nombre", "email", "telefono", "estado"]

/-- Unknown-field errors raised by marshmallow for keys outside the load
fields of the schema. -/
def unknownFieldErrors (o : JObj) : List (String × String) :=
  o.filterMap (fun kv =>
    if kv.1 ∈ knownKeys then none else some (kv.1, "Unknown field."))

/-- Deserialization of the `nombre` field (schemas.py:159-166): required
(unless the load is a PATCH-style load where missing fields are skipped),
not nullable, length between 1 and 100.  Returns (errors, loaded value). -/
def checkNombre (o : JObj) (patchLoad : Bool) :
    List (String × String) × Option String :=
  match getField o "nombre" with
  | none =>
      if patchLoad then ([], none)
      else ([("nombre", "El nombre es requerido")], none)
  | some .null => ([("nombre", "Field may not be null.")], none)
  | some (.s v) =>
      if 1 ≤ v.length ∧ v.length ≤ 100 then ([], some v)
      else ([("nombre", "El nombre debe tener entre 1 y 100 caracteres")], none)

/-- Deserialization of the `email` field (schemas.py:169-177): required
(unless PATCH-style), not nullable, valid email grammar, length at most
120; the grammar check of `fields.Email` runs before the Length validator. -/
def checkEmail (o : JObj) (patchLoad : Bool) :
    List (String × String) × Option String :=
  match getField o "email" with
  | none =>
      if patchLoad then ([], none)
      else ([("email", "El email es requerido")], none)
  | some .null => ([("email", "Field may not be null.")], none)
  | some (.s v) =>
      if isValidEmail v = false then
        ([("email", "El formato del email no es válido")], none)
      else if 120 < v.length then
        ([("email", "El email no puede exceder 120 caracteres")], none)
      else ([], some v)

/-- Deserialization of the `telefono` field (schemas.py:180-186): optional,
nullable, length at most 20.  The loaded value distinguishes an explicit
null (some none) from an absent field (none). -/
def checkTelefono (o : JObj) :
    List (String × String) × Option (Option String) :=
  match getField o "telefono" with
  | none => ([], none)
  | some .null => ([], some none)
  | some (.s v) =>
      if v.length ≤ 20 then ([], some (some v))
      else ([("telefono", "El teléfono no puede exceder 20 caracteres")], none)

/-- Deserialization of the `estado` field (schemas.py:189-196): one of
activo/inactivo, with load_default activo.  Under a PATCH-style load
(partial=True) marshmallow skips missing fields entirely, so the default is
only injected on a full (create) load. -/
def checkEstado (o : JObj) (patchLoad : Bool) :
    List (String × String) × Option String :=
  match getField o "estado" with
  | none => if patchLoad then ([], none) else ([], some "activo")
  | some .null => ([("estado", "Field may not be null.")], none)
  | some (.s v) =>
      if v == "activo" || v == "inactivo" then ([], some v)
      else ([("estado", "El estado debe ser activo o inactivo")], none)

/-- The data produced by a schema load: each field is present only if it was
supplied and passed its field validators. -/
structure LoadedFields where
  nombre : Option String
  email : Option String
  telefono : Option (Option String)
  estado : Option String
  deriving DecidableEq, Repr

/-- Schema-level validator (schemas.py:198-277, validate_fields): the
blank-name guard and the email-uniqueness fast path.  `currentId` models
`self.context.get("instance").id`; the routes never populate the schema
context, so on every code path of the application it is none — which is the
C1 bug: the route passes the update target as a load argument
(`instance=cliente`), which marshmallow-sqlalchemy stores in
`self.instance`, never in `self.context`. -/
def validate_fields (d : LoadedFields) (records : List Cliente)
    (currentId : Option Nat) : List (String × String) :=
  let nombreErrs :=
    match d.nombre with
    | some n =>
        if (n != "") && strBlank n then
          [("nombre", "El nombre no puede contener solo espacios en blanco")]
        else []
    | none => []
  let emailErrs :=
    match d.email with
    | some e =>
        if e != "" then
          match records.find? (fun r => r.email == e) with
          | some c =>
              if (match currentId with
                  | some i => c.id != i
                  | none => true) then
                [("email", "Este email ya está registrado en el sistema")]
              else []
          | none => []
        else []
    | none => []
  nombreErrs ++ emailErrs

/-- A full schema load (`cliente_schema.load`): field deserialization with
accumulated errors, then the schema-level validator on the partially loaded
data (marshmallow runs schema validators on the fields that deserialized,
merging their errors with the field errors). -/
def schema_load (o : JObj) (patchLoad : Bool) (records : List Cliente)
    (currentId : Option Nat) :
    Except (List (String × String)) LoadedFields :=
  let n := checkNombre o patchLoad
  let e := checkEmail o patchLoad
  let tl := checkTelefono o
  let es := checkEstado o patchLoad
  let d : LoadedFields := ⟨n.2, e.2, tl.2, es.2⟩
  let allErrs := n.1 ++ e.1 ++ tl.1 ++ es.1 ++ unknownFieldErrors o ++
    validate_fields d records currentId
  if allErrs.isEmpty then .ok d else .error allErrs

/-- A transient Cliente produced by a successful create load, before the
database assigns id and timestamps. -/
structure NewCliente where
  nombre : String
  email : String
  telefono : Option String
  estado : String
  deriving DecidableEq, Repr

/-- Builds the transient instance from a successful non-PATCH load.  On that
path nombre and email are always present (required fields) and estado is
always present (load_default), so the fallback arguments of getD are never
read; telefono falls back to the column default none. -/
def mkNew (d : LoadedFields) : NewCliente :=
  ⟨d.nombre.getD "", d.email.getD "", d.telefono.getD none,
   d.estado.getD "activo"⟩

/-- The committed row for a transient instance: the database assigns the id
and sets both timestamp columns from the same utcnow tick. -/
def mkRecord (n : NewCliente) (id now : Nat) : Cliente :=
  ⟨id, n.nombre, n.email, n.telefono, n.estado, now, now⟩

/-- Assigns consecutive autoincrement ids to a batch of transient rows. -/
def assignAll (ns : List NewCliente) (startId now : Nat) : List Cliente :=
  match ns with
  | [] => []
  | n :: rest => mkRecord n startId now :: assignAll rest (startId + 1) now

/-- Pairwise distinctness of a list of strings, as a Bool. -/
def nodupBool : List String → Bool
  | [] => true
  | x :: xs => xs.all (fun y => !(x == y)) && nodupBool xs

/-- One transactional commit of `db.session.add_all` / `add` + `commit`:
either every row is inserted (emails fresh against the table and pairwise
distinct within the batch, per the UNIQUE constraint) or the transaction
raises IntegrityError and nothing is inserted (none). -/
def insertAll (s : AppState) (ns : List NewCliente) (now : Nat) :
    Option AppState :=
  if ns.all (fun n => s.records.all (fun r => !(r.email == n.email))) &&
      nodupBool (ns.map (fun n => n.email)) then
    some { records := s.records ++ assignAll ns s.nextId now,
           nextId := s.nextId + ns.length,
           usedIds := s.usedIds ++ (List.range ns.length).map
             (fun k => s.nextId + k) }
  else none

/-- Error details of a 422 response: per-field messages for a single-object
load, or per-item (index-keyed) field messages for a batch load. -/
inductive ErrDetails where
  | fields (errs : List (String × String))
  | items (errs : List (Nat × List (String × String)))
  deriving DecidableEq, Repr

/-- Outcome of a create / update / delete request, tagged by the response
shape of routes.py: 201 created, 200 updated, 200 deleted, 400 APIError,
404 APIError, 422 ValidationError, 409 IntegrityError. -/
inductive Response where
  | created (data : List Cliente)
  | updated (c : Cliente)
  | deleted
  | invalidInput (msg : String)
  | notFound (msg : String)
  | validationError (details : ErrDetails)
  | conflict (msg : String)
  deriving DecidableEq, Repr

/-- Validates all items of a batch body against the database state, per item
(`clientes_schema.load` with many=True). -/
def itemResults (items : List JObj) (records : List Cliente) :
    List (Except (List (String × String)) LoadedFields) :=
  items.map (fun o => schema_load o false records none)

/-- Collects the indexed errors of a batch load, starting at index base
(marshmallow keys batch errors by the 0-based item index). -/
def collectErrs : Nat → List (Except (List (String × String)) LoadedFields) →
    List (Nat × List (String × String))
  | _, [] => []
  | i, .ok _ :: rest => collectErrs (i + 1) rest
  | i, .error e :: rest => (i, e) :: collectErrs (i + 1) rest

/-- The successfully loaded instances of a batch load. -/
def collectOks : List (Except (List (String × String)) LoadedFields) →
    List NewCliente
  | [] => []
  | .ok d :: rest => mkNew d :: collectOks rest
  | .error _ :: rest => collectOks rest

/-- Batch load (`clientes_schema.load`): every item is validated against the
committed table (the siblings of the batch are not yet visible to the
uniqueness query); if any item has errors the whole load fails with the
index-keyed error map. -/
def loadMany (items : List JObj) (records : List Cliente) :
    Except (List (Nat × List (String × String))) (List NewCliente) :=
  let rs := itemResults items records
  let errs := collectErrs 0 rs
  if errs.isEmpty then .ok (collectOks rs) else .error errs

/-- POST /clientes (routes.py:66-211).  A falsy body is rejected with 400
before anything else (the dedicated empty-list check at routes.py:172-176 is
unreachable because `not []` is already true at routes.py:163).  A list body
is a batch create, an object body a single create; validation errors give
422 and an IntegrityError at commit gives 409 with a rollback. -/
def create_cliente (s : AppState) (body : ReqBody) (now : Nat) :
    Response × AppState :=
  match body with
  | .absent => (.invalidInput "No se proporcionaron datos de entrada", s)
  | .arr items =>
      if items.isEmpty then
        (.invalidInput "No se proporcionaron datos de entrada", s)
      else
        match loadMany items s.records with
        | .error errs => (.validationError (.items errs), s)
        | .ok ns =>
            match insertAll s ns now with
            | none => (.conflict "El email ya existe en el sistema", s)
            | some s2 => (.created (assignAll ns s.nextId now), s2)
  | .obj o =>
      if o.isEmpty then
        (.invalidInput "No se proporcionaron datos de entrada", s)
      else
        match schema_load o false s.records none with
        | .error errs => (.validationError (.fields errs), s)
        | .ok d =>
            match insertAll s [mkNew d] now with
            | none => (.conflict "El email ya existe en el sistema", s)
            | some s2 => (.created (assignAll [mkNew d] s.nextId now), s2)

/-- Applies the loaded fields of a PATCH-style load onto the target row
(marshmallow-sqlalchemy sets exactly the loaded attributes on the instance);
the onupdate hook of fecha_actualizacion fires at commit. -/
def applyLoaded (c : Cliente) (d : LoadedFields) (now : Nat) : Cliente :=
  { c with
    nombre := d.nombre.getD c.nombre
    email := d.email.getD c.email
    telefono := match d.telefono with
      | some t => t
      | none => c.telefono
    estado := d.estado.getD c.estado
    fecha_actualizacion := now }

/-- PUT /clientes/id (routes.py:430-590): 404 when the row is absent, 400
on a falsy body, then a PATCH-style schema load with the schema context NOT
carrying the instance (see validate_fields), 422 on validation errors, 409
on an IntegrityError at commit (another row already holds the new email),
otherwise the merged row is committed in place.  A non-empty list body is
an invalid input type for the single-object schema. -/
def update_cliente (s : AppState) (id : Nat) (body : ReqBody) (now : Nat) :
    Response × AppState :=
  match s.records.find? (fun r => r.id == id) with
  | none => (.notFound s!"No se encontró cliente con ID {id}", s)
  | some c =>
      match body with
      | .absent => (.invalidInput "No se proporcionaron datos de entrada", s)
      | .arr items =>
          if items.isEmpty then
            (.invalidInput "No se proporcionaron datos de entrada", s)
          else (.validationError (.fields [("_schema", "Invalid input type.")]), s)
      | .obj o =>
          if o.isEmpty then
            (.invalidInput "No se proporcionaron datos de entrada", s)
          else
            match schema_load o true s.records none with
            | .error errs => (.validationError (.fields errs), s)
            | .ok d =>
                let c2 := applyLoaded c d now
                if s.records.any (fun r => (r.id != c.id) && (r.email == c2.email)) then
                  (.conflict "El email ya existe en el sistema", s)
                else
                  let rs := s.records.map (fun r => if r.id == id then c2 else r)
                  (.updated c2, { s with records := rs })

/-- DELETE /clientes/id (routes.py:593-710): 404 when the row is absent,
otherwise the row is removed (the 500 path models a store failure, which the
embedded store never raises). -/
def delete_cliente (s : AppState) (id : Nat) : Response × AppState :=
  match s.records.find? (fun r => r.id == id) with
  | none => (.notFound s!"No se encontró cliente con ID {id}", s)
  | some _ =>
      (.deleted, { s with records := s.records.filter (fun r => r.id != id) })

/-- Payload of a 200 list response: the pagination block and the page of
rows. -/
structure ListOk where
  page : Int
  per_page : Int
  total : Nat
  pages : Nat
  data : List Cliente
  deriving DecidableEq, Repr

/-- Outcome of GET /clientes. -/
inductive ListResponse where
  | ok (r : ListOk)
  | invalidInput (msg : String)
  deriving DecidableEq, Repr

/-- Inserts a row into a list kept sorted by id (helper of the order_by
model). -/
def insertById (c : Cliente) : List Cliente → List Cliente
  | [] => [c]
  | d :: ds => if c.id ≤ d.id then c :: d :: ds else d :: insertById c ds

/-- The `order_by(Cliente.id)` clause: the rows sorted by id ascending. -/
def sortById : List Cliente → List Cliente
  | [] => []
  | c :: cs => insertById c (sortById cs)

/-- The paginated query (routes.py:324-328): order by id, then `paginate`
with error_out=False slices the requested page; `total` counts all rows of
the filtered query and `pages` is the ceiling of total / per_page. -/
def runQuery (recs : List Cliente) (page perPage : Int) : ListOk :=
  let sorted := sortById recs
  let total := sorted.length
  let pp := perPage.toNat
  { page := page, per_page := perPage, total := total,
    pages := (total + pp - 1) / pp,
    data := (sorted.drop ((page - 1) * perPage).toNat).take pp }

/-- GET /clientes (routes.py:214-340): parameter validation before the query
(page at least 1, per_page in 1..100, estado in activo/inactivo), the estado
filter applied only for a truthy (nonempty) estado parameter. -/
def list_clientes (s : AppState) (page perPage : Int)
    (estado : Option String) : ListResponse :=
  if page < 1 then
    .invalidInput "El número de página debe ser mayor a 0"
  else if perPage < 1 ∨ 100 < perPage then
    .invalidInput "El número de resultados debe estar entre 1 y 100"
  else
    match estado with
    | some e =>
        if e ≠ "" then
          if e = "activo" ∨ e = "inactivo" then
            .ok (runQuery (s.records.filter (fun r => r.estado == e)) page perPage)
          else .invalidInput "El estado debe ser activo o inactivo"
        else .ok (runQuery s.records page perPage)
    | none => .ok (runQuery s.records page perPage)

/-- The permitted update targets of Cliente.update (models.py:341). -/
def campos_permitidos : List String := ["nombre", "email", "telefono", "estado"]

/-- Applies one keyword argument of Cliente.update (models.py:341-345): a
permitted key with a non-None value is set, everything else is ignored
silently. -/
def applyKwarg (c : Cliente) (k : String) (v : Option String) : Cliente :=
  match v with
  | none => c
  | some w =>
      if k = "nombre" then { c with nombre := w }
      else if k = "email" then { c with email := w }
      else if k = "telefono" then { c with telefono := some w }
      else if k = "estado" then { c with estado := w }
      else c

/-- Cliente.update (models.py:275-345): iterates the keyword arguments,
setting exactly the permitted, non-None ones; `none` models a Python None
value. -/
def Cliente.update (c : Cliente) : List (String × Option String) → Cliente
  | [] => c
  | (k, v) :: rest => Cliente.update (applyKwarg c k v) rest

/-- Validity of a nombre value under the field and schema validators:
length in 1..100 and not whitespace-only. -/
abbrev validNombre (n : String) : Prop :=
  1 ≤ n.length ∧ n.length ≤ 100 ∧ strBlank n = false

/-- Validity of an email value under the field validators: the grammar
accepts it and it has at most 120 characters. -/
abbrev validEmailInput (e : String) : Prop :=
  isValidEmail e = true ∧ e.length ≤ 120

/-- The standard two-field create payload used by the uniqueness claims. -/
def mkPayload (n e : String) : JObj :=
  [("nombre", .s n), ("email", .s e)]

/-! ### Helper lemmas about the sorting model of order_by -/

lemma insertById_length (c : Cliente) (l : List Cliente) :
    (insertById c l).length = l.length + 1 := by
  induction l with
  | nil => rfl
  | cons d ds ih =>
    unfold insertById
    split
    · simp
    · simp [ih]

lemma sortById_length (l : List Cliente) : (sortById l).length = l.length := by
  induction l with
  | nil => rfl
  | cons c cs ih => simp [sortById, insertById_length, ih]

lemma mem_insertById {x c : Cliente} {l : List Cliente} :
    x ∈ insertById c l ↔ x = c ∨ x ∈ l := by
  induction l with
  | nil => simp [insertById]
  | cons d ds ih =>
    unfold insertById
    split
    · simp [List.mem_cons]
    · simp [List.mem_cons, ih]
      tauto

lemma insertById_pairwise {c : Cliente} {l : List Cliente}
    (h : l.Pairwise (fun a b => a.id ≤ b.id)) :
    (insertById c l).Pairwise (fun a b => a.id ≤ b.id) := by
  induction l with
  | nil => simp [insertById]
  | cons d ds ih =>
    rcases List.pairwise_cons.mp h with ⟨hd, hds⟩
    unfold insertById
    split
    · rename_i hle
      refine List.pairwise_cons.mpr ⟨?_, h⟩
      intro x hx
      rcases List.mem_cons.mp hx with rfl | hx2
      · exact hle
      · exact le_trans hle (hd x hx2)
    · rename_i hgt
      refine List.pairwise_cons.mpr ⟨?_, ih hds⟩
      intro x hx
      rcases mem_insertById.mp hx with rfl | hx2
      · omega
      · exact hd x hx2

lemma sortById_pairwise (l : List Cliente) :
    (sortById l).Pairwise (fun a b => a.id ≤ b.id) := by
  induction l with
  | nil => simp [sortById]
  | cons c cs ih => exact insertById_pairwise ih

lemma runQuery_pairwise (recs : List Cliente) (page perPage : Int) :
    (runQuery recs page perPage).data.Pairwise (fun a b => a.id ≤ b.id) := by
  have hs := sortById_pairwise recs
  exact hs.sublist ((List.take_sublist _ _).trans (List.drop_sublist _ _))

lemma runQuery_beyond (recs : List Cliente) (page perPage : Int)
    (h : recs.length ≤ ((page - 1) * perPage).toNat) :
    (runQuery recs page perPage).data = [] := by
  have hlen : (sortById recs).length ≤ ((page - 1) * perPage).toNat := by
    rw [sortById_length]; exact h
  simp [runQuery, List.drop_eq_nil_of_le hlen]

/-! ### Claim C6 -/

/-- C6: a GET /clientes page beyond the available data is a 200 success with
an empty data array whose pagination total is the true record count (not an
error), and the records of every successful list response are ordered by id
ascending. -/
theorem c6_beyond_range_and_ordering (s : AppState) :
    (∀ page perPage : Int, 1 ≤ page → 1 ≤ perPage → perPage ≤ 100 →
        s.records.length ≤ ((page - 1) * perPage).toNat →
        ∃ pgs : Nat, list_clientes s page perPage none =
          .ok ⟨page, perPage, s.records.length, pgs, []⟩)
  ∧ (∀ (page perPage : Int) (est : Option String) (info : ListOk),
        list_clientes s page perPage est = .ok info →
        info.data.Pairwise (fun a b => a.id ≤ b.id)) := by
  constructor
  · intro page perPage h1 h2 h3 hb
    refine ⟨(s.records.length + perPage.toNat - 1) / perPage.toNat, ?_⟩
    unfold list_clientes
    rw [if_neg (by omega), if_neg (by omega)]
    have hdata := runQuery_beyond s.records page perPage hb
    show ListResponse.ok (runQuery s.records page perPage) = _
    rw [hdata.symm]
    unfold runQuery
    simp [sortById_length, hdata]
  · intro page perPage est info hok
    unfold list_clientes at hok
    split at hok
    · cases hok
    · split at hok
      · cases hok
      · cases est with
        | none =>
          simp only [] at hok
          cases hok
          exact runQuery_pairwise _ _ _
        | some e =>
          simp only [] at hok
          split at hok
          · split at hok
            · cases hok
              exact runQuery_pairwise _ _ _
            · cases hok
          · cases hok
            exact runQuery_pairwise _ _ _

/-- Witness for C6 on a concrete collection of 5 records: page 999 with 10
per page is a success carrying an empty data array and total 5. -/
theorem c6_beyond_range_and_ordering_witness :
    ∃ pgs : Nat,
      list_clientes
        ⟨[⟨1, "A", "a@x.co", none, "activo", 0, 0⟩,
          ⟨2, "B", "b@x.co", none, "activo", 0, 0⟩,
          ⟨3, "C", "c@x.co", none, "activo", 0, 0⟩,
          ⟨4, "D", "d@x.co", none, "activo", 0, 0⟩,
          ⟨5, "E", "e@x.co", none, "activo", 0, 0⟩], 6, [1, 2, 3, 4, 5]⟩
        999 10 none = .ok ⟨999, 10, 5, pgs, []⟩ :=
  (c6_beyond_range_and_ordering
    ⟨[⟨1, "A", "a@x.co", none, "activo", 0, 0⟩,
      ⟨2, "B", "b@x.co", none, "activo", 0, 0⟩,
      ⟨3, "C", "c@x.co", none, "activo", 0, 0⟩,
      ⟨4, "D", "d@x.co", none, "activo", 0, 0⟩,
      ⟨5, "E", "e@x.co", none, "activo", 0, 0⟩], 6, [1, 2, 3, 4, 5]⟩).1
    999 10 (by decide) (by decide) (by decide) (by decide)

/-! ### Claim C7 -/

/-- C7: list parameter validation happens before the query (the result is
the same 400 INVALID_INPUT APIError for every database state): page below 1
is rejected, per_page outside 1..100 is rejected, and per_page = 100 with a
valid page succeeds. -/
theorem c7_pagination_validation (s : AppState) (est : Option String) :
    (∀ page perPage : Int, page < 1 →
        list_clientes s page perPage est =
          .invalidInput "El número de página debe ser mayor a 0")
  ∧ (∀ page perPage : Int, 1 ≤ page → (perPage < 1 ∨ 100 < perPage) →
        list_clientes s page perPage est =
          .invalidInput "El número de resultados debe estar entre 1 y 100")
  ∧ (∀ page : Int, 1 ≤ page →
        ∃ info : ListOk, list_clientes s page 100 none = .ok info) := by
  refine ⟨?_, ?_, ?_⟩
  · intro page perPage h
    unfold list_clientes
    rw [if_pos h]
  · intro page perPage h1 h2
    unfold list_clientes
    rw [if_neg (by omega), if_pos h2]
  · intro page h
    refine ⟨runQuery s.records page 100, ?_⟩
    unfold list_clientes
    rw [if_neg (by omega), if_neg (by omega)]

/-- Witness for C7 on a concrete store: per_page 0 and 101 are rejected,
page 0 is rejected, per_page 100 succeeds. -/
theorem c7_pagination_validation_witness :
    list_clientes ⟨[⟨1, "Ana", "ana@test.com", none, "activo", 0, 0⟩], 2, [1]⟩
        1 0 none = .invalidInput "El número de resultados debe estar entre 1 y 100"
  ∧ list_clientes ⟨[⟨1, "Ana", "ana@test.com", none, "activo", 0, 0⟩], 2, [1]⟩
        1 101 none = .invalidInput "El número de resultados debe estar entre 1 y 100"
  ∧ list_clientes ⟨[⟨1, "Ana", "ana@test.com", none, "activo", 0, 0⟩], 2, [1]⟩
        0 10 none = .invalidInput "El número de página debe ser mayor a 0"
  ∧ ∃ info : ListOk,
      list_clientes ⟨[⟨1, "Ana", "ana@test.com", none, "activo", 0, 0⟩], 2, [1]⟩
        1 100 none = .ok info :=
  ⟨(c7_pagination_validation ⟨[⟨1, "Ana", "ana@test.com", none, "activo", 0, 0⟩], 2, [1]⟩
      none).2.1 1 0 (by decide) (by decide),
   (c7_pagination_validation ⟨[⟨1, "Ana", "ana@test.com", none, "activo", 0, 0⟩], 2, [1]⟩
      none).2.1 1 101 (by decide) (by decide),
   (c7_pagination_validation ⟨[⟨1, "Ana", "ana@test.com", none, "activo", 0, 0⟩], 2, [1]⟩
      none).1 0 10 (by decide),
   (c7_pagination_validation ⟨[⟨1, "Ana", "ana@test.com", none, "activo", 0, 0⟩], 2, [1]⟩
      none).2.2 1 (by decide)⟩

/-! ### Claim C8 -/

/-- C8: deleting a nonexistent id is a 404 NOT_FOUND that leaves the store
unchanged, and deleting an existing record twice in a row answers success
then 404. -/
theorem c8_delete_semantics (s : AppState) :
    (∀ id : Nat, s.records.find? (fun r => r.id == id) = none →
        delete_cliente s id = (.notFound s!"No se encontró cliente con ID {id}", s))
  ∧ (∀ (id : Nat) (c : Cliente), s.records.find? (fun r => r.id == id) = some c →
        (delete_cliente s id).1 = .deleted ∧
        (delete_cliente (delete_cliente s id).2 id).1 =
          .notFound s!"No se encontró cliente con ID {id}") := by
  constructor
  · intro id h
    unfold delete_cliente
    rw [h]
  · intro id c h
    have hgone : (s.records.filter (fun r => r.id != id)).find?
        (fun r => r.id == id) = none := by
      apply List.find?_eq_none.mpr
      intro x hx
      have hx2 := (List.mem_filter.mp hx).2
      simpa using hx2
    constructor
    · unfold delete_cliente
      rw [h]
    · unfold delete_cliente
      rw [h]
      simp only []
      rw [hgone]

/-- Witness for C8 at a concrete store with one record. -/
theorem c8_delete_semantics_witness :
    (delete_cliente ⟨[⟨1, "Ana", "ana@test.com", none, "activo", 0, 0⟩], 2, [1]⟩ 1).1
        = .deleted
    ∧ (delete_cliente
        (delete_cliente ⟨[⟨1, "Ana", "ana@test.com", none, "activo", 0, 0⟩], 2, [1]⟩ 1).2 1).1
        = .notFound "No se encontró cliente con ID 1" :=
  (c8_delete_semantics ⟨[⟨1, "Ana", "ana@test.com", none, "activo", 0, 0⟩], 2, [1]⟩).2
    1 ⟨1, "Ana", "ana@test.com", none, "activo", 0, 0⟩ (by decide)

/-! ### Claim C9 -/

lemma applyKwarg_id (c : Cliente) (k : String) (v : Option String) :
    (applyKwarg c k v).id = c.id := by
  cases v with
  | none => rfl
  | some w =>
    simp only [applyKwarg]
    split_ifs <;> rfl

lemma applyKwarg_fecha_creacion (c : Cliente) (k : String) (v : Option String) :
    (applyKwarg c k v).fecha_creacion = c.fecha_creacion := by
  cases v with
  | none => rfl
  | some w =>
    simp only [applyKwarg]
    split_ifs <;> rfl

lemma applyKwarg_fecha_actualizacion (c : Cliente) (k : String) (v : Option String) :
    (applyKwarg c k v).fecha_actualizacion = c.fecha_actualizacion := by
  cases v with
  | none => rfl
  | some w =>
    simp only [applyKwarg]
    split_ifs <;> rfl

lemma applyKwarg_nombre (c : Cliente) (k : String) (v : Option String)
    (h : k ≠ "nombre" ∨ v = none) : (applyKwarg c k v).nombre = c.nombre := by
  cases v with
  | none => rfl
  | some w =>
    have hk : k ≠ "nombre" := by
      rcases h with h | h
      · exact h
      · cases h
    simp only [applyKwarg]
    split_ifs <;> simp_all

lemma applyKwarg_email (c : Cliente) (k : String) (v : Option String)
    (h : k ≠ "email" ∨ v = none) : (applyKwarg c k v).email = c.email := by
  cases v with
  | none => rfl
  | some w =>
    have hk : k ≠ "email" := by
      rcases h with h | h
      · exact h
      · cases h
    simp only [applyKwarg]
    split_ifs <;> simp_all

lemma applyKwarg_telefono (c : Cliente) (k : String) (v : Option String)
    (h : k ≠ "telefono" ∨ v = none) : (applyKwarg c k v).telefono = c.telefono := by
  cases v with
  | none => rfl
  | some w =>
    have hk : k ≠ "telefono" := by
      rcases h with h | h
      · exact h
      · cases h
    simp only [applyKwarg]
    split_ifs <;> simp_all

lemma applyKwarg_estado (c : Cliente) (k : String) (v : Option String)
    (h : k ≠ "estado" ∨ v = none) : (applyKwarg c k v).estado = c.estado := by
  cases v with
  | none => rfl
  | some w =>
    have hk : k ≠ "estado" := by
      rcases h with h | h
      · exact h
      · cases h
    simp only [applyKwarg]
    split_ifs <;> simp_all

lemma applyKwarg_noop (c : Cliente) (k : String) (v : Option String)
    (h : k ∉ campos_permitidos ∨ v = none) : applyKwarg c k v = c := by
  cases v with
  | none => rfl
  | some w =>
    have hk : k ∉ campos_permitidos := by
      rcases h with h | h
      · exact h
      · cases h
    simp only [campos_permitidos, List.mem_cons, List.mem_singleton] at hk
    push_neg at hk
    simp only [applyKwarg]
    rw [if_neg hk.1, if_neg hk.2.1, if_neg hk.2.2.1, if_neg (by simpa using hk.2.2.2)]

lemma update_id (c : Cliente) (kwargs : List (String × Option String)) :
    (Cliente.update c kwargs).id = c.id := by
  induction kwargs generalizing c with
  | nil => rfl
  | cons kv rest ih =>
    rw [Cliente.update, ih, applyKwarg_id]

lemma update_fecha_creacion (c : Cliente) (kwargs : List (String × Option String)) :
    (Cliente.update c kwargs).fecha_creacion = c.fecha_creacion := by
  induction kwargs generalizing c with
  | nil => rfl
  | cons kv rest ih =>
    rw [Cliente.update, ih, applyKwarg_fecha_creacion]

lemma update_fecha_actualizacion (c : Cliente)
    (kwargs : List (String × Option String)) :
    (Cliente.update c kwargs).fecha_actualizacion = c.fecha_actualizacion := by
  induction kwargs generalizing c with
  | nil => rfl
  | cons kv rest ih =>
    rw [Cliente.update, ih, applyKwarg_fecha_actualizacion]

lemma update_nombre_frame (c : Cliente) (kwargs : List (String × Option String))
    (h : ∀ v : String, ("nombre", some v) ∉ kwargs) :
    (Cliente.update c kwargs).nombre = c.nombre := by
  induction kwargs generalizing c with
  | nil => rfl
  | cons kv rest ih =>
    obtain ⟨k, v⟩ := kv
    have hhd : k ≠ "nombre" ∨ v = none := by
      cases v with
      | none => exact Or.inr rfl
      | some w =>
        left
        intro hk
        exact h w (by rw [hk]; exact List.mem_cons_self _ _)
    have hrest : ∀ w : String, ("nombre", some w) ∉ rest := by
      intro w hw
      exact h w (List.mem_cons_of_mem _ hw)
    rw [Cliente.update, ih _ hrest, applyKwarg_nombre _ _ _ hhd]

lemma update_email_frame (c : Cliente) (kwargs : List (String × Option String))
    (h : ∀ v : String, ("email", some v) ∉ kwargs) :
    (Cliente.update c kwargs).email = c.email := by
  induction kwargs generalizing c with
  | nil => rfl
  | cons kv rest ih =>
    obtain ⟨k, v⟩ := kv
    have hhd : k ≠ "email" ∨ v = none := by
      cases v with
      | none => exact Or.inr rfl
      | some w =>
        left
        intro hk
        exact h w (by rw [hk]; exact List.mem_cons_self _ _)
    have hrest : ∀ w : String, ("email", some w) ∉ rest := by
      intro w hw
      exact h w (List.mem_cons_of_mem _ hw)
    rw [Cliente.update, ih _ hrest, applyKwarg_email _ _ _ hhd]

lemma update_telefono_frame (c : Cliente) (kwargs : List (String × Option String))
    (h : ∀ v : String, ("telefono", some v) ∉ kwargs) :
    (Cliente.update c kwargs).telefono = c.telefono := by
  induction kwargs generalizing c with
  | nil => rfl
  | cons kv rest ih =>
    obtain ⟨k, v⟩ := kv
    have hhd : k ≠ "telefono" ∨ v = none := by
      cases v with
      | none => exact Or.inr rfl
      | some w =>
        left
        intro hk
        exact h w (by rw [hk]; exact List.mem_cons_self _ _)
    have hrest : ∀ w : String, ("telefono", some w) ∉ rest := by
      intro w hw
      exact h w (List.mem_cons_of_mem _ hw)
    rw [Cliente.update, ih _ hrest, applyKwarg_telefono _ _ _ hhd]

lemma update_estado_frame (c : Cliente) (kwargs : List (String × Option String))
    (h : ∀ v : String, ("estado", some v) ∉ kwargs) :
    (Cliente.update c kwargs).estado = c.estado := by
  induction kwargs generalizing c with
  | nil => rfl
  | cons kv rest ih =>
    obtain ⟨k, v⟩ := kv
    have hhd : k ≠ "estado" ∨ v = none := by
      cases v with
      | none => exact Or.inr rfl
      | some w =>
        left
        intro hk
        exact h w (by rw [hk]; exact List.mem_cons_self _ _)
    have hrest : ∀ w : String, ("estado", some w) ∉ rest := by
      intro w hw
      exact h w (List.mem_cons_of_mem _ hw)
    rw [Cliente.update, ih _ hrest, applyKwarg_estado _ _ _ hhd]

lemma update_noop (c : Cliente) (kwargs : List (String × Option String))
    (h : ∀ kv ∈ kwargs, kv.1 ∉ campos_permitidos ∨ kv.2 = none) :
    Cliente.update c kwargs = c := by
  induction kwargs generalizing c with
  | nil => rfl
  | cons kv rest ih =>
    obtain ⟨k, v⟩ := kv
    rw [Cliente.update, applyKwarg_noop _ _ _ (h (k, v) (List.mem_cons_self _ _))]
    exact ih _ (fun kv2 hkv2 => h kv2 (List.mem_cons_of_mem _ hkv2))

lemma update_nombre_overwrite (c : Cliente) (kwargs : List (String × Option String))
    (h : ∃ v : String, ("nombre", some v) ∈ kwargs) :
    ∃ w : String, ("nombre", some w) ∈ kwargs ∧
      (Cliente.update c kwargs).nombre = w := by
  induction kwargs generalizing c with
  | nil =>
    obtain ⟨v, hv⟩ := h
    cases hv
  | cons kv rest ih =>
    obtain ⟨k, u⟩ := kv
    by_cases hrest : ∃ w : String, ("nombre", some w) ∈ rest
    · obtain ⟨w2, hw2, hval⟩ := ih (applyKwarg c k u) hrest
      refine ⟨w2, List.mem_cons_of_mem _ hw2, ?_⟩
      rw [Cliente.update]
      exact hval
    · push_neg at hrest
      obtain ⟨v, hv⟩ := h
      have hhd : (k, u) = ("nombre", some v) := by
        rcases List.mem_cons.mp hv with h1 | h1
        · exact h1.symm
        · exact absurd h1 (hrest v)
      obtain ⟨rfl, rfl⟩ := Prod.mk.inj hhd
      refine ⟨v, List.mem_cons_self _ _, ?_⟩
      rw [Cliente.update, update_nombre_frame _ _ hrest]
      simp [applyKwarg]

lemma update_email_overwrite (c : Cliente) (kwargs : List (String × Option String))
    (h : ∃ v : String, ("email", some v) ∈ kwargs) :
    ∃ w : String, ("email", some w) ∈ kwargs ∧
      (Cliente.update c kwargs).email = w := by
  induction kwargs generalizing c with
  | nil =>
    obtain ⟨v, hv⟩ := h
    cases hv
  | cons kv rest ih =>
    obtain ⟨k, u⟩ := kv
    by_cases hrest : ∃ w : String, ("email", some w) ∈ rest
    · obtain ⟨w2, hw2, hval⟩ := ih (applyKwarg c k u) hrest
      refine ⟨w2, List.mem_cons_of_mem _ hw2, ?_⟩
      rw [Cliente.update]
      exact hval
    · push_neg at hrest
      obtain ⟨v, hv⟩ := h
      have hhd : (k, u) = ("email", some v) := by
        rcases List.mem_cons.mp hv with h1 | h1
        · exact h1.symm
        · exact absurd h1 (hrest v)
      obtain ⟨rfl, rfl⟩ := Prod.mk.inj hhd
      refine ⟨v, List.mem_cons_self _ _, ?_⟩
      rw [Cliente.update, update_email_frame _ _ hrest]
      simp [applyKwarg]

lemma update_telefono_overwrite (c : Cliente) (kwargs : List (String × Option String))
    (h : ∃ v : String, ("telefono", some v) ∈ kwargs) :
    ∃ w : String, ("telefono", some w) ∈ kwargs ∧
      (Cliente.update c kwargs).telefono = some w := by
  induction kwargs generalizing c with
  | nil =>
    obtain ⟨v, hv⟩ := h
    cases hv
  | cons kv rest ih =>
    obtain ⟨k, u⟩ := kv
    by_cases hrest : ∃ w : String, ("telefono", some w) ∈ rest
    · obtain ⟨w2, hw2, hval⟩ := ih (applyKwarg c k u) hrest
      refine ⟨w2, List.mem_cons_of_mem _ hw2, ?_⟩
      rw [Cliente.update]
      exact hval
    · push_neg at hrest
      obtain ⟨v, hv⟩ := h
      have hhd : (k, u) = ("telefono", some v) := by
        rcases List.mem_cons.mp hv with h1 | h1
        · exact h1.symm
        · exact absurd h1 (hrest v)
      obtain ⟨rfl, rfl⟩ := Prod.mk.inj hhd
      refine ⟨v, List.mem_cons_self _ _, ?_⟩
      rw [Cliente.update, update_telefono_frame _ _ hrest]
      simp [applyKwarg]

lemma update_estado_overwrite (c : Cliente) (kwargs : List (String × Option String))
    (h : ∃ v : String, ("estado", some v) ∈ kwargs) :
    ∃ w : String, ("estado", some w) ∈ kwargs ∧
      (Cliente.update c kwargs).estado = w := by
  induction kwargs generalizing c with
  | nil =>
    obtain ⟨v, hv⟩ := h
    cases hv
  | cons kv rest ih =>
    obtain ⟨k, u⟩ := kv
    by_cases hrest : ∃ w : String, ("estado", some w) ∈ rest
    · obtain ⟨w2, hw2, hval⟩ := ih (applyKwarg c k u) hrest
      refine ⟨w2, List.mem_cons_of_mem _ hw2, ?_⟩
      rw [Cliente.update]
      exact hval
    · push_neg at hrest
      obtain ⟨v, hv⟩ := h
      have hhd : (k, u) = ("estado", some v) := by
        rcases List.mem_cons.mp hv with h1 | h1
        · exact h1.symm
        · exact absurd h1 (hrest v)
      obtain ⟨rfl, rfl⟩ := Prod.mk.inj hhd
      refine ⟨v, List.mem_cons_self _ _, ?_⟩
      rw [Cliente.update, update_estado_frame _ _ hrest]
      simp [applyKwarg]

/-- C9: Cliente.update overwrites exactly the permitted fields named with a
non-None value — each of nombre, email, telefono, estado is set to a
supplied value whenever the mapping names it with a non-None value (the last
binding when a key repeats); id, fecha_creacion, fecha_actualizacion and
every field not named (or named with None) are untouched, keys outside the
permitted set are ignored silently, and no input raises. -/
theorem c9_update_frame (c : Cliente) (kwargs : List (String × Option String)) :
    (Cliente.update c kwargs).id = c.id
  ∧ (Cliente.update c kwargs).fecha_creacion = c.fecha_creacion
  ∧ (Cliente.update c kwargs).fecha_actualizacion = c.fecha_actualizacion
  ∧ ((∀ v : String, ("nombre", some v) ∉ kwargs) →
        (Cliente.update c kwargs).nombre = c.nombre)
  ∧ ((∀ v : String, ("email", some v) ∉ kwargs) →
        (Cliente.update c kwargs).email = c.email)
  ∧ ((∀ v : String, ("telefono", some v) ∉ kwargs) →
        (Cliente.update c kwargs).telefono = c.telefono)
  ∧ ((∀ v : String, ("estado", some v) ∉ kwargs) →
        (Cliente.update c kwargs).estado = c.estado)
  ∧ ((∀ kv ∈ kwargs, kv.1 ∉ campos_permitidos ∨ kv.2 = none) →
        Cliente.update c kwargs = c)
  ∧ (∀ v : String, ("nombre", some v) ∈ kwargs →
        ∃ w : String, ("nombre", some w) ∈ kwargs ∧
          (Cliente.update c kwargs).nombre = w)
  ∧ (∀ v : String, ("email", some v) ∈ kwargs →
        ∃ w : String, ("email", some w) ∈ kwargs ∧
          (Cliente.update c kwargs).email = w)
  ∧ (∀ v : String, ("telefono", some v) ∈ kwargs →
        ∃ w : String, ("telefono", some w) ∈ kwargs ∧
          (Cliente.update c kwargs).telefono = some w)
  ∧ (∀ v : String, ("estado", some v) ∈ kwargs →
        ∃ w : String, ("estado", some w) ∈ kwargs ∧
          (Cliente.update c kwargs).estado = w) :=
  ⟨update_id c kwargs, update_fecha_creacion c kwargs,
   update_fecha_actualizacion c kwargs,
   update_nombre_frame c kwargs, update_email_frame c kwargs,
   update_telefono_frame c kwargs, update_estado_frame c kwargs,
   update_noop c kwargs,
   fun v hv => update_nombre_overwrite c kwargs ⟨v, hv⟩,
   fun v hv => update_email_overwrite c kwargs ⟨v, hv⟩,
   fun v hv => update_telefono_overwrite c kwargs ⟨v, hv⟩,
   fun v hv => update_estado_overwrite c kwargs ⟨v, hv⟩⟩

/-- Witness for C9 at a concrete record and keyword mapping carrying an
unknown key, a None value and an estado overwrite: the named estado is
overwritten and the other fields are untouched. -/
theorem c9_update_frame_witness :
    (Cliente.update ⟨1, "Ana", "ana@test.com", some "555", "activo", 0, 0⟩
        [("estado", some "inactivo"), ("id", some "9"), ("telefono", none)]).id = 1
  ∧ (Cliente.update ⟨1, "Ana", "ana@test.com", some "555", "activo", 0, 0⟩
        [("estado", some "inactivo"), ("id", some "9"), ("telefono", none)]).nombre
      = "Ana"
  ∧ (Cliente.update ⟨1, "Ana", "ana@test.com", some "555", "activo", 0, 0⟩
        [("estado", some "inactivo"), ("id", some "9"), ("telefono", none)]).telefono
      = some "555"
  ∧ (Cliente.update ⟨1, "Ana", "ana@test.com", some "555", "activo", 0, 0⟩
        [("estado", some "inactivo"), ("id", some "9"), ("telefono", none)]).estado
      = "inactivo" := by
  have h := c9_update_frame ⟨1, "Ana", "ana@test.com", some "555", "activo", 0, 0⟩
    [("estado", some "inactivo"), ("id", some "9"), ("telefono", none)]
  obtain ⟨h1, h2, h3, h4, h5, h6, h7, h8, h9, h10, h11, h12⟩ := h
  refine ⟨h1, ?_, ?_, ?_⟩
  · refine h4 ?_
    intro v hv
    simp at hv
  · refine h6 ?_
    intro v hv
    simp at hv
  · obtain ⟨w, hw, hval⟩ := h12 "inactivo" (List.mem_cons_self _ _)
    have hw2 : w = "inactivo" := by
      simpa using hw
    rw [hval, hw2]

/-! ### Claim C10 -/

/-- C10: an empty JSON object body is treated exactly as an absent body by
both create and update — the Python falsiness check rejects it with the same
400 APIError, the store is untouched and no field-level validation details
are produced. -/
theorem c10_empty_object_body (s : AppState) (t : Nat) :
    (create_cliente s (.obj []) t = create_cliente s .absent t
      ∧ create_cliente s (.obj []) t =
          (.invalidInput "No se proporcionaron datos de entrada", s))
  ∧ (∀ id : Nat, update_cliente s id (.obj []) t = update_cliente s id .absent t)
  ∧ (∀ (id : Nat) (c : Cliente),
        s.records.find? (fun r => r.id == id) = some c →
        update_cliente s id (.obj []) t =
          (.invalidInput "No se proporcionaron datos de entrada", s)) := by
  refine ⟨⟨rfl, rfl⟩, ?_, ?_⟩
  · intro id
    unfold update_cliente
    cases s.records.find? (fun r => r.id == id) <;> rfl
  · intro id c h
    unfold update_cliente
    rw [h]
    rfl

/-- Witness for C10 on a concrete store holding the target record. -/
theorem c10_empty_object_body_witness :
    update_cliente ⟨[⟨1, "Ana", "ana@test.com", none, "activo", 0, 0⟩], 2, [1]⟩
        1 (.obj []) 5
      = (.invalidInput "No se proporcionaron datos de entrada",
         ⟨[⟨1, "Ana", "ana@test.com", none, "activo", 0, 0⟩], 2, [1]⟩) :=
  (c10_empty_object_body ⟨[⟨1, "Ana", "ana@test.com", none, "activo", 0, 0⟩], 2, [1]⟩
      5).2.2 1 ⟨1, "Ana", "ana@test.com", none, "activo", 0, 0⟩ (by decide)

/-! ### Helper lemmas about schema_load -/

lemma isValidEmail_ne_empty {e : String} (h : isValidEmail e = true) : e ≠ "" := by
  rintro rfl
  exact absurd h (by decide)

lemma checkNombre_some {o : JObj} {pl : Bool} {v : String}
    (hg : getField o "nombre" = some (.s v)) (h1 : 1 ≤ v.length)
    (h2 : v.length ≤ 100) : checkNombre o pl = ([], some v) := by
  unfold checkNombre
  rw [hg]
  exact if_pos ⟨h1, h2⟩

lemma checkEmail_some {o : JObj} {pl : Bool} {v : String}
    (hg : getField o "email" = some (.s v)) (h1 : isValidEmail v = true)
    (h2 : v.length ≤ 120) : checkEmail o pl = ([], some v) := by
  unfold checkEmail
  rw [hg]
  show (if isValidEmail v = false then _
        else if 120 < v.length then _ else (([], some v) : _)) = _
  rw [if_neg (by simp [h1]), if_neg (by omega)]

lemma validate_fields_fresh {n em : String} {tl : Option (Option String)}
    {es : Option String} {records : List Cliente}
    (hblank : strBlank n = false) (hne : em ≠ "")
    (hfind : records.find? (fun r => r.email == em) = none) :
    validate_fields ⟨some n, some em, tl, es⟩ records none = [] := by
  unfold validate_fields
  simp [hblank, hne, hfind]

lemma validate_fields_dup {n em : String} {tl : Option (Option String)}
    {es : Option String} {records : List Cliente} {c : Cliente}
    (hblank : strBlank n = false) (hne : em ≠ "")
    (hfind : records.find? (fun r => r.email == em) = some c) :
    validate_fields ⟨some n, some em, tl, es⟩ records none =
      [("email", "Este email ya está registrado en el sistema")] := by
  unfold validate_fields
  simp [hblank, hne, hfind]

lemma schema_load_payload_ok (n e : String) (records : List Cliente)
    (hn : validNombre n) (he : validEmailInput e)
    (hfind : records.find? (fun r => r.email == e) = none) :
    schema_load (mkPayload n e) false records none =
      .ok ⟨some n, some e, none, some "activo"⟩ := by
  obtain ⟨hn1, hn2, hn3⟩ := hn
  obtain ⟨he1, he2⟩ := he
  have hgn : getField (mkPayload n e) "nombre" = some (.s n) := rfl
  have hge : getField (mkPayload n e) "email" = some (.s e) := rfl
  have htl : checkTelefono (mkPayload n e) = ([], none) := rfl
  have hes : checkEstado (mkPayload n e) false = ([], some "activo") := rfl
  have hun : unknownFieldErrors (mkPayload n e) = [] := rfl
  simp only [schema_load, checkNombre_some hgn hn1 hn2, checkEmail_some hge he1 he2,
    htl, hes, hun, validate_fields_fresh hn3 (isValidEmail_ne_empty he1) hfind]
  rfl

lemma schema_load_payload_dup (n e : String) (records : List Cliente) (c : Cliente)
    (hn : validNombre n) (he : validEmailInput e)
    (hfind : records.find? (fun r => r.email == e) = some c) :
    schema_load (mkPayload n e) false records none =
      .error [("email", "Este email ya está registrado en el sistema")] := by
  obtain ⟨hn1, hn2, hn3⟩ := hn
  obtain ⟨he1, he2⟩ := he
  have hgn : getField (mkPayload n e) "nombre" = some (.s n) := rfl
  have hge : getField (mkPayload n e) "email" = some (.s e) := rfl
  have htl : checkTelefono (mkPayload n e) = ([], none) := rfl
  have hes : checkEstado (mkPayload n e) false = ([], some "activo") := rfl
  have hun : unknownFieldErrors (mkPayload n e) = [] := rfl
  simp only [schema_load, checkNombre_some hgn hn1 hn2, checkEmail_some hge he1 he2,
    htl, hes, hun, validate_fields_dup hn3 (isValidEmail_ne_empty he1) hfind]
  rfl

/-! ### Claim C5 -/

/-- C5: a partial update whose body carries only estado leaves nombre, email
and telefono untouched (the load_default of estado is not injected under a
PATCH-style load) and moves fecha_actualizacion to the commit time, which is
at least its previous value. -/
theorem c5_estado_only_update (s : AppState) (id : Nat) (c : Cliente) (t : Nat)
    (hwf : WF s)
    (hfind : s.records.find? (fun r => r.id == id) = some c)
    (ht : c.fecha_actualizacion ≤ t) :
    ∃ c2 : Cliente,
      (update_cliente s id (.obj [("estado", .s "inactivo")]) t).1 = .updated c2
      ∧ c2.nombre = c.nombre ∧ c2.email = c.email ∧ c2.telefono = c.telefono
      ∧ c2.estado = "inactivo"
      ∧ c.fecha_actualizacion ≤ c2.fecha_actualizacion := by
  have hload : schema_load [("estado", JVal.s "inactivo")] true s.records none
      = .ok ⟨none, none, none, some "inactivo"⟩ := rfl
  have hmem : c ∈ s.records := List.mem_of_find?_eq_some hfind
  have hinj := hwf.2.2.2
  have hany : s.records.any
      (fun r => (r.id != c.id) &&
        (r.email == (applyLoaded c ⟨none, none, none, some "inactivo"⟩ t).email))
      = false := by
    rw [List.any_eq_false]
    intro r hr
    simp only [Bool.and_eq_true, bne_iff_ne, beq_iff_eq, not_and, ne_eq]
    intro hid hem
    have : r = c := List.inj_on_of_nodup_map hinj hr hmem hem
    exact hid (by rw [this])
  unfold update_cliente
  rw [hfind]
  simp only [List.isEmpty_cons, hload]
  rw [if_neg (by simp), hany]
  simp only [Bool.false_eq_true, if_false]
  exact ⟨applyLoaded c ⟨none, none, none, some "inactivo"⟩ t,
    rfl, rfl, rfl, rfl, rfl, ht⟩

/-- Witness for C5 on a concrete store and record. -/
theorem c5_estado_only_update_witness :
    ∃ c2 : Cliente,
      (update_cliente ⟨[⟨1, "Ana", "ana@test.com", none, "activo", 0, 3⟩], 2, [1]⟩
          1 (.obj [("estado", .s "inactivo")]) 5).1 = .updated c2
      ∧ c2.nombre = "Ana" ∧ c2.email = "ana@test.com" ∧ c2.telefono = none
      ∧ c2.estado = "inactivo"
      ∧ 3 ≤ c2.fecha_actualizacion :=
  c5_estado_only_update ⟨[⟨1, "Ana", "ana@test.com", none, "activo", 0, 3⟩], 2, [1]⟩
    1 ⟨1, "Ana", "ana@test.com", none, "activo", 0, 3⟩ 5
    (by unfold WF; decide) (by decide) (by decide)

/-! ### Inversion lemmas for successful create loads -/

lemma schema_load_nil (records : List Cliente) (cid : Option Nat) :
    schema_load [] false records cid =
      .error [("nombre", "El nombre es requerido"),
              ("email", "El email es requerido")] := rfl

lemma checkEmail_ok_parts {o : JObj} (h : (checkEmail o false).1 = []) :
    ∃ v : String, isValidEmail v = true ∧ (checkEmail o false).2 = some v := by
  unfold checkEmail at h ⊢
  rcases hg : getField o "email" with _ | jv
  · simp only [hg] at h
    simp at h
  · cases jv with
    | null =>
      simp only [hg] at h
      simp at h
    | s v =>
      simp only [hg] at h ⊢
      by_cases h1 : isValidEmail v = false
      · rw [if_pos h1] at h
        simp at h
      · rw [if_neg h1] at h ⊢
        by_cases h2 : 120 < v.length
        · rw [if_pos h2] at h
          simp at h
        · rw [if_neg h2]
          exact ⟨v, by simpa using h1, rfl⟩

lemma validate_fields_nil_find {d : LoadedFields} {records : List Cliente}
    {em : String} (hde : d.email = some em) (hne : em ≠ "")
    (h : validate_fields d records none = []) :
    records.find? (fun r => r.email == em) = none := by
  rcases hf : records.find? (fun r => r.email == em) with _ | c
  · exact hf
  · exfalso
    unfold validate_fields at h
    simp [hde, hf, hne] at h

lemma schema_load_ok_parts {o : JObj} {records : List Cliente} {d : LoadedFields}
    (h : schema_load o false records none = .ok d) :
    ∃ em : String, d.email = some em ∧
      records.find? (fun r => r.email == em) = none := by
  simp only [schema_load] at h
  split at h
  · rename_i hemp
    injection h with h2
    subst h2
    rw [List.isEmpty_iff] at hemp
    simp only [List.append_eq_nil] at hemp
    obtain ⟨⟨⟨⟨⟨hn1, he1⟩, ht1⟩, hs1⟩, hu1⟩, hv1⟩ := hemp
    obtain ⟨em, hval, hsome⟩ := checkEmail_ok_parts he1
    refine ⟨em, hsome, ?_⟩
    exact validate_fields_nil_find hsome (isValidEmail_ne_empty hval) hv1
  · cases h

/-! ### Claim C4 -/

/-- C4: for every payload whose create load succeeds, the 201 response
carries one record whose fecha_creacion equals its fecha_actualizacion and
whose id is the fresh autoincrement value — distinct from every id ever
assigned before (usedIds) and from the id of every stored record. -/
theorem c4_create_fresh_id_and_timestamps (s : AppState) (o : JObj) (t : Nat)
    (d : LoadedFields) (hwf : WF s)
    (hload : schema_load o false s.records none = .ok d) :
    ∃ (c : Cliente) (s2 : AppState),
      create_cliente s (.obj o) t = (.created [c], s2)
      ∧ c.fecha_creacion = c.fecha_actualizacion
      ∧ c.id = s.nextId
      ∧ c.id ∉ s.usedIds
      ∧ ∀ r ∈ s.records, r.id ≠ c.id := by
  obtain ⟨em, hdem, hfind⟩ := schema_load_ok_parts hload
  have ho : o ≠ [] := by
    rintro rfl
    rw [schema_load_nil] at hload
    cases hload
  have hoe : o.isEmpty = false := by simpa [List.isEmpty_iff] using ho
  have hmail : (mkNew d).email = em := by simp [mkNew, hdem]
  have hcond : ([mkNew d].all
        (fun nn => s.records.all (fun r => !(r.email == nn.email))) &&
      nodupBool ([mkNew d].map (fun nn => nn.email))) = true := by
    simp [nodupBool, hmail]
    intro r hr
    have := List.find?_eq_none.mp hfind r hr
    simpa using this
  have hins : insertAll s [mkNew d] t =
      some ⟨s.records ++ [mkRecord (mkNew d) s.nextId t], s.nextId + 1,
            s.usedIds ++ [s.nextId]⟩ := by
    unfold insertAll
    rw [if_pos hcond]
    simp [assignAll, List.range_succ]
  refine ⟨mkRecord (mkNew d) s.nextId t,
    ⟨s.records ++ [mkRecord (mkNew d) s.nextId t], s.nextId + 1,
     s.usedIds ++ [s.nextId]⟩, ?_, rfl, rfl, ?_, ?_⟩
  · simp only [create_cliente, hoe, Bool.false_eq_true, if_false, hload, hins]
    rfl
  · intro hmem
    exact absurd (hwf.1 _ hmem) (lt_irrefl _)
  · intro r hr
    have h1 := hwf.1 _ (hwf.2.1 r hr)
    simp only [mkRecord]
    omega

/-- Witness for C4: a create on the empty store assigns id 1 with equal
timestamps. -/
theorem c4_create_fresh_id_and_timestamps_witness :
    ∃ (c : Cliente) (s2 : AppState),
      create_cliente ⟨[], 1, []⟩ (.obj (mkPayload "Ana" "ana@test.com")) 4
        = (.created [c], s2)
      ∧ c.fecha_creacion = c.fecha_actualizacion
      ∧ c.id = 1
      ∧ c.id ∉ ([] : List Nat)
      ∧ ∀ r ∈ ([] : List Cliente), r.id ≠ c.id :=
  c4_create_fresh_id_and_timestamps ⟨[], 1, []⟩ (mkPayload "Ana" "ana@test.com") 4
    ⟨some "Ana", some "ana@test.com", none, some "activo"⟩
    (by unfold WF; decide) rfl

/-! ### Claim C3 -/

lemma collectErrs_mem {rs : List (Except (List (String × String)) LoadedFields)}
    {i : Nat} {e : List (String × String)} (base : Nat) (hi : i < rs.length)
    (h : rs.get ⟨i, hi⟩ = .error e) :
    (base + i, e) ∈ collectErrs base rs := by
  induction rs generalizing base i with
  | nil => cases hi
  | cons hd tl ih =>
    cases i with
    | zero =>
      simp only [List.get] at h
      subst h
      simp [collectErrs]
    | succ j =>
      simp only [List.get] at h
      have hj : j < tl.length := by
        simpa using hi
      have hmem := ih (base + 1) hj h
      have harith : base + 1 + j = base + (j + 1) := by omega
      rw [harith] at hmem
      cases hd with
      | ok d => simpa [collectErrs] using hmem
      | error e2 =>
        simp only [collectErrs]
        exact List.mem_cons_of_mem _ hmem

/-- C3: a batch create in which any item fails validation persists nothing
(the state is returned unchanged) and answers a 422 whose details carry that
item under its 0-based position in the list. -/
theorem c3_batch_all_or_nothing (s : AppState) (items : List JObj) (t : Nat)
    (i : Nat) (hi : i < items.length) (errs : List (String × String))
    (hfail : schema_load (items.get ⟨i, hi⟩) false s.records none = .error errs) :
    ∃ allErrs : List (Nat × List (String × String)),
      create_cliente s (.arr items) t = (.validationError (.items allErrs), s)
      ∧ (i, errs) ∈ allErrs := by
  have hlen : i < (itemResults items s.records).length := by
    simpa [itemResults] using hi
  have hget : (itemResults items s.records).get ⟨i, hlen⟩ = .error errs := by
    simp only [itemResults, List.get_eq_getElem, List.getElem_map]
    exact hfail
  have hmem : (i, errs) ∈ collectErrs 0 (itemResults items s.records) := by
    have := collectErrs_mem 0 hlen hget
    simpa using this
  have hne : collectErrs 0 (itemResults items s.records) ≠ [] := by
    intro hnil
    rw [hnil] at hmem
    cases hmem
  have hitems : items.isEmpty = false := by
    cases items with
    | nil => cases hi
    | cons a l => rfl
  have hlm : loadMany items s.records =
      .error (collectErrs 0 (itemResults items s.records)) := by
    unfold loadMany
    rw [if_neg (by simpa [List.isEmpty_iff] using hne)]
  refine ⟨collectErrs 0 (itemResults items s.records), ?_, hmem⟩
  simp only [create_cliente, hitems, Bool.false_eq_true, if_false, hlm]

/-- Witness for C3: a 3-item batch whose second item (index 1) lacks the
required email is rejected whole, the store untouched, with the error keyed
by index 1. -/
theorem c3_batch_all_or_nothing_witness :
    ∃ allErrs : List (Nat × List (String × String)),
      create_cliente ⟨[], 1, []⟩
        (.arr [mkPayload "Ana" "a@x.co", [("nombre", .s "Beto")],
               mkPayload "Ceci" "c@x.co"]) 0
        = (.validationError (.items allErrs), ⟨[], 1, []⟩)
      ∧ (1, [("email", "El email es requerido")]) ∈ allErrs :=
  c3_batch_all_or_nothing ⟨[], 1, []⟩
    [mkPayload "Ana" "a@x.co", [("nombre", .s "Beto")], mkPayload "Ceci" "c@x.co"]
    0 1 (by decide) [("email", "El email es requerido")] rfl

/-! ### Claim C2 -/

lemma mkPayload_isEmpty (n e : String) : (mkPayload n e).isEmpty = false := rfl

lemma create_single_ok (s : AppState) (n e : String) (t : Nat)
    (hn : validNombre n) (he : validEmailInput e)
    (hfind : s.records.find? (fun r => r.email == e) = none) :
    create_cliente s (.obj (mkPayload n e)) t =
      (.created [mkRecord ⟨n, e, none, "activo"⟩ s.nextId t],
       ⟨s.records ++ [mkRecord ⟨n, e, none, "activo"⟩ s.nextId t],
        s.nextId + 1, s.usedIds ++ [s.nextId]⟩) := by
  have hload := schema_load_payload_ok n e s.records hn he hfind
  have hmk : mkNew ⟨some n, some e, none, some "activo"⟩ =
      (⟨n, e, none, "activo"⟩ : NewCliente) := rfl
  have hcond : (([(⟨n, e, none, "activo"⟩ : NewCliente)].all
        (fun nn => s.records.all (fun r => !(r.email == nn.email)))) &&
      nodupBool ([(⟨n, e, none, "activo"⟩ : NewCliente)].map
        (fun nn => nn.email))) = true := by
    simp [nodupBool]
    intro r hr
    simpa using List.find?_eq_none.mp hfind r hr
  have hins : insertAll s [(⟨n, e, none, "activo"⟩ : NewCliente)] t =
      some ⟨s.records ++ [mkRecord ⟨n, e, none, "activo"⟩ s.nextId t],
            s.nextId + 1, s.usedIds ++ [s.nextId]⟩ := by
    unfold insertAll
    rw [if_pos hcond]
    simp [assignAll, List.range_succ]
  simp only [create_cliente, mkPayload_isEmpty, Bool.false_eq_true, if_false,
    hload, hmk, hins]
  rfl

lemma create_single_dup (s : AppState) (n e : String) (t : Nat) (c : Cliente)
    (hn : validNombre n) (he : validEmailInput e)
    (hfind : s.records.find? (fun r => r.email == e) = some c) :
    create_cliente s (.obj (mkPayload n e)) t =
      (.validationError (.fields
        [("email", "Este email ya está registrado en el sistema")]), s) := by
  have hload := schema_load_payload_dup n e s.records c hn he hfind
  simp only [create_cliente, mkPayload_isEmpty, Bool.false_eq_true, if_false, hload]

lemma create_batch_same_email (s : AppState) (n1 n2 e : String) (t : Nat)
    (hn1 : validNombre n1) (hn2 : validNombre n2) (he : validEmailInput e)
    (hfind : s.records.find? (fun r => r.email == e) = none) :
    create_cliente s (.arr [mkPayload n1 e, mkPayload n2 e]) t =
      (.conflict "El email ya existe en el sistema", s) := by
  have h1 := schema_load_payload_ok n1 e s.records hn1 he hfind
  have h2 := schema_load_payload_ok n2 e s.records hn2 he hfind
  have hlm : loadMany [mkPayload n1 e, mkPayload n2 e] s.records =
      .ok [⟨n1, e, none, "activo"⟩, ⟨n2, e, none, "activo"⟩] := by
    simp only [loadMany, itemResults, List.map_cons, List.map_nil, h1, h2]
    rfl
  have hins : insertAll s
      [(⟨n1, e, none, "activo"⟩ : NewCliente), ⟨n2, e, none, "activo"⟩] t = none := by
    unfold insertAll
    rw [if_neg (by simp [nodupBool])]
  simp only [create_cliente, List.isEmpty_cons, Bool.false_eq_true, if_false,
    hlm, hins]

/-- C2 (amended): two sequential creates with the same email yield exactly
one success — the first is created, the second is rejected with a 422
VALIDATION_ERROR and leaves the store unchanged; a batch whose two items
share an email is rejected whole with 409 CONFLICT and creates ZERO records
(not one).  In no case do both succeed. -/
theorem c2_duplicate_email_one_success (s : AppState) (n1 n2 e : String)
    (t1 t2 t3 : Nat) (hn1 : validNombre n1) (hn2 : validNombre n2)
    (he : validEmailInput e) (hfresh : ∀ r ∈ s.records, r.email ≠ e) :
    (create_cliente s (.obj (mkPayload n1 e)) t1).1
        = .created [mkRecord ⟨n1, e, none, "activo"⟩ s.nextId t1]
  ∧ create_cliente ((create_cliente s (.obj (mkPayload n1 e)) t1).2)
        (.obj (mkPayload n2 e)) t2
      = (.validationError (.fields
          [("email", "Este email ya está registrado en el sistema")]),
         (create_cliente s (.obj (mkPayload n1 e)) t1).2)
  ∧ create_cliente s (.arr [mkPayload n1 e, mkPayload n2 e]) t3
      = (.conflict "El email ya existe en el sistema", s) := by
  have hfind : s.records.find? (fun r => r.email == e) = none :=
    List.find?_eq_none.mpr (fun r hr => by simpa using hfresh r hr)
  have hfirst := create_single_ok s n1 e t1 hn1 he hfind
  refine ⟨by rw [hfirst], ?_,
    create_batch_same_email s n1 n2 e t3 hn1 hn2 he hfind⟩
  rw [hfirst]
  have hfind2 : (s.records ++
      [mkRecord ⟨n1, e, none, "activo"⟩ s.nextId t1]).find?
        (fun r => r.email == e)
      = some (mkRecord ⟨n1, e, none, "activo"⟩ s.nextId t1) := by
    rw [List.find?_append, hfind]
    simp [mkRecord, List.find?]
  exact create_single_dup _ n2 e t2 _ hn2 he hfind2

/-- C2 counterexample: on the empty store, a batch of two items sharing one
email answers 409 CONFLICT and persists zero records — refuting the claim
that a same-email pair submitted as two items of one batch yields exactly
one successfully created record. -/
theorem c2_duplicate_email_counterexample :
    create_cliente ⟨[], 1, []⟩
        (.arr [mkPayload "Ana" "dup@test.com", mkPayload "Beto" "dup@test.com"]) 0
      = (.conflict "El email ya existe en el sistema", ⟨[], 1, []⟩)
    ∧ (create_cliente ⟨[], 1, []⟩
        (.arr [mkPayload "Ana" "dup@test.com", mkPayload "Beto" "dup@test.com"])
          0).2.records.length = 0 := by
  decide

/-- Witness for C2 (amended) on the empty store. -/
theorem c2_duplicate_email_one_success_witness :
    (create_cliente ⟨[], 1, []⟩ (.obj (mkPayload "Ana" "dup@test.com")) 0).1
        = .created [mkRecord ⟨"Ana", "dup@test.com", none, "activo"⟩ 1 0]
  ∧ create_cliente
        ((create_cliente ⟨[], 1, []⟩ (.obj (mkPayload "Ana" "dup@test.com")) 0).2)
        (.obj (mkPayload "Beto" "dup@test.com")) 3
      = (.validationError (.fields
          [("email", "Este email ya está registrado en el sistema")]),
         (create_cliente ⟨[], 1, []⟩ (.obj (mkPayload "Ana" "dup@test.com")) 0).2)
  ∧ create_cliente ⟨[], 1, []⟩
        (.arr [mkPayload "Ana" "dup@test.com", mkPayload "Beto" "dup@test.com"]) 7
      = (.conflict "El email ya existe en el sistema", ⟨[], 1, []⟩) :=
  c2_duplicate_email_one_success ⟨[], 1, []⟩ "Ana" "Beto" "dup@test.com" 0 3 7
    (by decide) (by decide) (by decide) (by simp)

/-! ### Claim C1 -/

/-- C1 (bug in the code): a PUT that re-submits a record's own current email
is rejected with a 422 VALIDATION_ERROR instead of succeeding.  The route
passes the update target as `cliente_schema.load(..., instance=cliente)`
(routes.py:565-569), which marshmallow-sqlalchemy stores in
`schema.instance`; validate_fields however reads the target from
`self.context.get("instance")` (schemas.py:268), which no route ever
populates, so `current_id` is always None and the record found by the
uniqueness query is never recognized as the record being updated — contrary
to the schema's own documented behavior (schemas.py:233-239). -/
theorem c1_self_email_update_rejected :
    update_cliente ⟨[⟨1, "Ana", "ana@test.com", none, "activo", 0, 0⟩], 2, [1]⟩ 1
        (.obj [("email", .s "ana@test.com")]) 7
      = (.validationError (.fields
           [("email", "Este email ya está registrado en el sistema")]),
         ⟨[⟨1, "Ana", "ana@test.com", none, "activo", 0, 0⟩], 2, [1]⟩) := by
  decide

end CrudPython
